import Mathlib

/-!
Verification development for the `geoc` Go package (src/geoc.go).

Strings are modelled as `List Char`.  Go `float64` arithmetic is modelled by
exact rationals (`ℚ`); every numeric value manipulated by the claims is a
small decimal literal, for which rational arithmetic agrees with the ideal
semantics of the code.  Fallible operations return `Except ParseError`.
Error wrapping with `fmt.Errorf("%w ...")` preserves the error kind in Go
(`errors.Is`), so only the kind is modelled.
-/

deriving instance DecidableEq for Except

namespace Geoc

/-- Character constant for the apostrophe (minute separator in the grammar). -/
def apos : Char := Char.ofNat 39

/-- Character constant for the double quote (second separator in the grammar). -/
def quot : Char := Char.ofNat 34

/-- `Location` from src/geoc.go: None / Lat / Lon. -/
inductive Location where
  | None
  | Lat
  | Lon
deriving DecidableEq, Repr

/-- `Coord` from src/geoc.go: a value (decimal degrees) and a location tag. -/
structure Coord where
  value : ℚ
  loc : Location
deriving DecidableEq, Repr

/-- `Point` from src/geoc.go: a latitude and a longitude coordinate. -/
structure Point where
  lat : Coord
  lon : Coord
deriving DecidableEq, Repr

/-- The three error kinds of src/geoc.go. -/
inductive ParseError where
  | invalidString
  | invalidCoord
  | outOfRange
deriving DecidableEq, Repr

/-- `coordGroups` from src/geoc.go: raw matched text of one occurrence. -/
structure CoordGroups where
  sgn : List Char
  deg : List Char
  mn : List Char
  sc : List Char
  lc : List Char
  compact : Bool
  sepDeg : List Char
  sepMin : List Char
  sepSec : List Char
deriving DecidableEq, Repr

/-- Go regexp `\s` (RE2 Perl class): tab, newline, form feed, carriage return, space. -/
def isSpc (c : Char) : Bool :=
  c = ' ' ∨ c = Char.ofNat 9 ∨ c = Char.ofNat 10 ∨ c = Char.ofNat 12 ∨ c = Char.ofNat 13

/-- ASCII decimal digit, Go regexp `\d`. -/
def isDigitC (c : Char) : Bool := c.isDigit

/-- A decimal mark: `.` or `,`. -/
def isMarkC (c : Char) : Bool := c = '.' ∨ c = ','

/-- Character class of the degree separator `[-°]`. -/
def isDegSepChar (c : Char) : Bool := c = '-' ∨ c = '°'

/-- Character class of the minute separator `[-']`. -/
def isMinSepChar (c : Char) : Bool := c = '-' ∨ c = apos

/-- Character class of the second separator `[ "]`. -/
def isSecSepChar (c : Char) : Bool := c = ' ' ∨ c = quot

/-- Hemisphere letters `[NSEW]`. -/
def isLocChar (c : Char) : Bool := c = 'N' ∨ c = 'S' ∨ c = 'E' ∨ c = 'W'

/-- Greedy scan of `\d+(?:[\.,]\d+)?` at the head of the input
(the number tokens of `coordRegExp` in src/geoc.go). -/
def scanNumber (s : List Char) : Option (List Char × List Char) :=
  match s.span isDigitC with
  | (ds, r) =>
    if ds.isEmpty then none
    else
      match r with
      | c :: r2 =>
        if isMarkC c then
          match r2.span isDigitC with
          | (ds2, r3) => if ds2.isEmpty then some (ds, r) else some (ds ++ c :: ds2, r3)
        else some (ds, r)
      | [] => some (ds, r)

/-- Greedy scan of a separator `\s*[X]?\s*` at the head of the input. -/
def scanSep (p : Char → Bool) (s : List Char) : List Char × List Char :=
  match s.span isSpc with
  | (a, r1) =>
    match r1 with
    | c :: t =>
      if p c then
        match t.span isSpc with
        | (b, r2) => (a ++ c :: b, r2)
      else (a, r1)
    | [] => (a, [])

/-- The raw captured substrings of one occurrence of `coordRegExp`, in order:
leading whitespace, sign, degrees, degree separator, minutes, minute separator,
seconds, second separator, hemisphere letter, trailing whitespace. -/
structure RawMatch where
  w0 : List Char
  sg : List Char
  dg : List Char
  dsr : List Char
  mnr : List Char
  msr : List Char
  scr : List Char
  ssr : List Char
  lcr : List Char
  w1 : List Char
deriving DecidableEq, Repr

/-- Total length of all captured substrings (`totalLen` in `coordGroupsFromMatch`).
Every character of the whole match lies in exactly one capture group, so this is
also the length of the full match. -/
def rawLen (r : RawMatch) : Nat :=
  r.w0.length + r.sg.length + r.dg.length + r.dsr.length + r.mnr.length +
    r.msr.length + r.scr.length + r.ssr.length + r.lcr.length + r.w1.length

/-- The optional sign capture `[-+]?` at the head of the input. -/
def signPart : List Char → List Char × List Char
  | [] => ([], [])
  | c :: t => if c = '-' ∨ c = '+' then ([c], t) else ([], c :: t)

/-- An optional number token followed by its separator
(`(?:(?P<min>...)(?P<msr>...)?)?`); a failed number skips the separator too. -/
def numSepPart (p : Char → Bool) (s : List Char) : List Char × List Char × List Char :=
  match scanNumber s with
  | none => ([], [], s)
  | some (m, s4) =>
    match scanSep p s4 with
    | (x, s5) => (m, x, s5)

/-- The optional hemisphere letter capture `[NSEW]?`. -/
def locPart : List Char → List Char × List Char
  | [] => ([], [])
  | c :: t => if isLocChar c then ([c], t) else ([], c :: t)

/-- Attempt to match `coordRegExp` starting exactly at the head of `s`
(leftmost-first semantics; each construct after the mandatory degrees token is
optional and matched greedily, and a skipped minutes token forces a skipped
seconds token since both have the same grammar). Returns the captures and the
unconsumed suffix. -/
def matchAt (s : List Char) : Option (RawMatch × List Char) :=
  match s.span isSpc with
  | (w0, s0) =>
    match signPart s0 with
    | (sg, s1) =>
      match scanNumber s1 with
      | none => none
      | some (dg, s2) =>
        match scanSep isDegSepChar s2 with
        | (dsr, s3) =>
          match numSepPart isMinSepChar s3 with
          | (mn, msr, s5) =>
            match numSepPart isSecSepChar s5 with
            | (sc, ssr, s7) =>
              match locPart s7 with
              | (lcr, s8) =>
                match s8.span isSpc with
                | (w1, s9) => some (⟨w0, sg, dg, dsr, mn, msr, sc, ssr, lcr, w1⟩, s9)

/-- Leftmost search: try `matchAt` at each successive start position
(Go `regexp` finds the leftmost match; the pattern never matches the empty
string since the degrees token is mandatory). -/
def findFrom : List Char → Option (RawMatch × List Char)
  | [] => matchAt []
  | c :: t =>
    match matchAt (c :: t) with
    | some r => some r
    | none => findFrom t

/-- `FindAllStringSubmatch` with a match-count limit: successive non-overlapping
leftmost matches. -/
def findAll (s : List Char) (limit : Nat) : List RawMatch :=
  match limit with
  | 0 => []
  | n + 1 =>
    match findFrom s with
    | none => []
    | some (r, rest) => r :: findAll rest n

/-- `makeSep` from `coordGroupsFromMatch`: trim whitespace; a non-empty capture
that trims to empty becomes a single space; an empty capture stays empty. -/
def makeSep (s : List Char) : List Char :=
  let t := ((s.dropWhile isSpc).reverse.dropWhile isSpc).reverse
  if t ≠ [] then t else if s ≠ [] then [' '] else []

/-- `coordGroupsFromMatch` from src/geoc.go (group assignment part). -/
def coordGroupsFromMatch (r : RawMatch) : CoordGroups :=
  ⟨r.sg, r.dg, r.mnr, r.scr, r.lcr, false, makeSep r.dsr, makeSep r.msr, makeSep r.ssr⟩

/-- Does the string contain a decimal mark (`strings.IndexAny(s, ".,") != -1`)? -/
def hasMark (s : List Char) : Bool := s.any isMarkC

/-- `normalizeCompact` from src/geoc.go: split a compact 4-digit MMSS minutes
field into 2-digit minutes and seconds. -/
def normalizeCompact (g : CoordGroups) : CoordGroups :=
  if g.mn.length = 4 ∧ g.sc = [] ∧ g.lc ≠ [] ∧ ¬ hasMark g.mn then
    { g with compact := true, sc := g.mn.drop 2, mn := g.mn.take 2 }
  else g

/-- `newCoordGroups` from src/geoc.go: exactly one occurrence whose captured
length equals the input length. -/
def newCoordGroups (cs : List Char) : Except ParseError CoordGroups :=
  match findAll cs 2 with
  | [] => .error .invalidString
  | [r] =>
    if rawLen r = cs.length then .ok (normalizeCompact (coordGroupsFromMatch r))
    else .error .invalidString
  | _ => .error .invalidString

/-- `newPointGroups` from src/geoc.go: exactly two occurrences; note that no
captured-length check is performed here. -/
def newPointGroups (cs : List Char) : Except ParseError (CoordGroups × CoordGroups) :=
  match findAll cs 3 with
  | [] => .error .invalidString
  | [_] => .error .invalidString
  | [r1, r2] =>
    .ok (normalizeCompact (coordGroupsFromMatch r1), normalizeCompact (coordGroupsFromMatch r2))
  | _ => .error .invalidString

/-- `formatClass` from src/geoc.go. -/
inductive FormatClass where
  | degDec
  | minDec
  | dms
deriving DecidableEq, Repr

/-- `getFormatClass` from src/geoc.go. -/
def getFormatClass (g : CoordGroups) : FormatClass :=
  if g.mn = [] then .degDec else if g.sc = [] then .minDec else .dms

/-- Numeric value of a big-endian ASCII digit string. -/
def valOfDigits (l : List Char) : ℕ :=
  l.foldl (fun a c => 10 * a + (c.toNat - 48)) 0

/-- Read a token of shape `\d+(\.\d+)?` into (integer part, fractional part,
fractional length), all natural numbers. -/
def readNum (s : List Char) : Option (ℕ × ℕ × ℕ) :=
  match s.span isDigitC with
  | (ip, r) =>
    if ip.isEmpty then none
    else
      match r with
      | [] => some (valOfDigits ip, 0, 0)
      | c :: fp =>
        if c = '.' ∧ ¬ fp.isEmpty ∧ fp.all isDigitC then
          some (valOfDigits ip, valOfDigits fp, fp.length)
        else none

/-- Model of `strconv.ParseFloat` restricted to the token shape produced by the
pattern matcher after mark normalization: `\d+(\.\d+)?`, read exactly. -/
def parseDec (s : List Char) : Option ℚ :=
  (readNum s).map fun t => (t.1 : ℚ) + (t.2.1 : ℚ) / 10 ^ t.2.2

/-- Replace the first decimal mark with `.`
(`cg.deg[:idx] + "." + cg.deg[idx+1:]` in src/geoc.go). -/
def normMark : List Char → List Char
  | [] => []
  | c :: t => if isMarkC c then '.' :: t else c :: normMark t

/-- `getLocation` from src/geoc.go. -/
def getLocation (g : CoordGroups) : Except ParseError Location :=
  if g.lc = ['N'] ∨ g.lc = ['S'] then .ok .Lat
  else if g.lc = ['E'] ∨ g.lc = ['W'] then .ok .Lon
  else if g.lc = [] then .ok .None
  else .error .invalidCoord

/-- `checkSign` from src/geoc.go: a sign may not coexist with a hemisphere letter. -/
def checkSign (g : CoordGroups) : Except ParseError Unit :=
  if g.sgn = [] then .ok ()
  else if (g.sgn = ['+'] ∨ g.sgn = ['-']) ∧ g.lc ≠ [] then .error .invalidCoord
  else .ok ()

/-- `checkLimits` from src/geoc.go: strict upper bound. -/
def checkLimits (value limit : ℚ) : Except ParseError ℚ :=
  if value < limit then .ok value else .error .outOfRange

/-- `getDegrees` from src/geoc.go.  Note the bound here is `degrees > limit`
(the limit itself is accepted), unlike `checkLimits`. -/
def getDegrees (g : CoordGroups) (loc : Location) : Except ParseError ℚ :=
  if g.deg = [] then .error .invalidCoord
  else if hasMark g.deg ∧ (g.mn ≠ [] ∨ g.sc ≠ []) then .error .invalidCoord
  else
    match parseDec (normMark g.deg) with
    | some d =>
      let limit : ℚ := if g.lc = ['S'] ∨ g.lc = ['N'] ∨ loc = .Lat then 90 else 180
      if d > limit then .error .outOfRange else .ok d
    | none => .error .invalidCoord

/-- `getMinutes` from src/geoc.go. -/
def getMinutes (g : CoordGroups) : Except ParseError ℚ :=
  if g.mn = [] then .ok 0
  else if hasMark g.mn ∧ g.sc ≠ [] then .error .invalidCoord
  else
    match parseDec (normMark g.mn) with
    | some m => checkLimits m 60
    | none => .error .invalidCoord

/-- `getSeconds` from src/geoc.go. -/
def getSeconds (g : CoordGroups) : Except ParseError ℚ :=
  if g.sc = [] then .ok 0
  else
    match parseDec (normMark g.sc) with
    | some s => checkLimits s 60
    | none => .error .invalidCoord

/-- `getCoord` from src/geoc.go: semantic evaluation of one occurrence. -/
def getCoord (g : CoordGroups) : Except ParseError Coord :=
  match checkSign g with
  | .error e => .error e
  | .ok _ =>
    match getLocation g with
    | .error e => .error e
    | .ok loc =>
      match getDegrees g loc with
      | .error e => .error e
      | .ok d =>
        match getMinutes g with
        | .error e => .error e
        | .ok m =>
          match getSeconds g with
          | .error e => .error e
          | .ok s =>
            let v := d + m / 60 + s / 3600
            .ok ⟨if g.sgn = ['-'] ∨ g.lc = ['S'] ∨ g.lc = ['W'] then -v else v, loc⟩

/-- `ParseCoord` from src/geoc.go. -/
def ParseCoord (s : List Char) : Except ParseError Coord :=
  match newCoordGroups s with
  | .error e => .error e
  | .ok g => getCoord g

/-- `ParsePoint` from src/geoc.go. -/
def ParsePoint (s : List Char) : Except ParseError Point :=
  match newPointGroups s with
  | .error e => .error e
  | .ok (g1, g2) =>
    match getCoord g1 with
    | .error e => .error e
    | .ok lat =>
      if lat.loc ≠ .Lat then .error .invalidString
      else
        match getCoord g2 with
        | .error e => .error e
        | .ok lon =>
          if lon.loc ≠ .Lon then .error .invalidString
          else if getFormatClass g1 ≠ getFormatClass g2 then .error .invalidString
          else .ok ⟨lat, lon⟩

/-! ### Formatting (Coord.Format, Coord.String, Point.Format, Point.String) -/

/-- The ASCII character of a decimal digit. -/
def digitChar (d : ℕ) : Char := Char.ofNat (48 + d)

/-- Decimal digit characters of `n`, most significant first (fuel-based so that
it reduces in the kernel). -/
def natCharsAux (fuel n : ℕ) : List Char :=
  match fuel with
  | 0 => []
  | fuel + 1 => if n = 0 then [] else natCharsAux fuel (n / 10) ++ [digitChar (n % 10)]

/-- Decimal representation of a natural number, as printed by Go. -/
def natChars (n : ℕ) : List Char := if n = 0 then ['0'] else natCharsAux n n

/-- Left-pad with zeros to width `w` (`%0*` padding in `fmt.Sprintf`). -/
def padZeros (w : ℕ) (s : List Char) : List Char :=
  List.replicate (w - s.length) '0' ++ s

/-- Round half to even, the rounding used by Go when formatting floats. -/
def rhe (q : ℚ) : ℤ :=
  if q - ⌊q⌋ < 1 / 2 then ⌊q⌋
  else if 1 / 2 < q - ⌊q⌋ then ⌊q⌋ + 1
  else if ⌊q⌋ % 2 = 0 then ⌊q⌋ else ⌊q⌋ + 1

/-- Model of `fmt.Sprintf("%.*f", p, q)` for `q ≥ 0`: fixed-point decimal with
`p` fractional digits. -/
def formatFixed (q : ℚ) (p : ℕ) : List Char :=
  let n := (rhe (q * 10 ^ p)).toNat
  if p = 0 then natChars n
  else natChars (n / 10 ^ p) ++ '.' :: padZeros p (natChars (n % 10 ^ p))

/-- Replace the first `.` with `,` (`strings.Replace(s, ".", ",", 1)`). -/
def commaize : List Char → List Char
  | [] => []
  | c :: t => if c = '.' then ',' :: t else c :: commaize t

/-- Apply the detected decimal separator (`decSep`) to a rendered number. -/
def applySep (d : Char) (s : List Char) : List Char :=
  if d = ',' then commaize s else s

/-- `detectDecimal` from `Coord.Format`: decimal mark character and number of
digits after it; defaults to `('.', 0)`. -/
def detectDec : List Char → Char × ℕ
  | [] => ('.', 0)
  | c :: t => if isMarkC c then (c, t.length) else detectDec t

/-- Decimal separator and precision detection of `Coord.Format`
(src/geoc.go lines 107-122): inspect seconds, else minutes, else degrees,
skipping the compact form. -/
def fmtPrec (cg : CoordGroups) : Char × ℕ :=
  if cg.sc ≠ [] ∧ ¬ cg.compact then detectDec cg.sc
  else if cg.mn ≠ [] ∧ ¬ cg.compact then detectDec cg.mn
  else if ¬ cg.mn ≠ [] then detectDec cg.deg
  else ('.', 0)

/-- Degree zero-padding width of `Coord.Format` (src/geoc.go lines 124-128). -/
def fmtWidth (cg : CoordGroups) : ℕ :=
  (cg.deg.takeWhile (fun c => ¬ isMarkC c)).length

/-- Output hemisphere letter of `Coord.Format` (src/geoc.go lines 130-144). -/
def fmtLocLetter (neg : Bool) (loc : Location) (lc : List Char) : List Char :=
  if lc ≠ [] then
    if loc = .Lat then (if neg then ['S'] else ['N'])
    else (if neg then ['W'] else ['E'])
  else []

/-- DegDec rendering branch of `Coord.Format` (src/geoc.go lines 146-164). -/
def fmtDegDec (av : ℚ) (neg : Bool) (cg : CoordGroups) (dp : Char × ℕ) (w : ℕ)
    (locLetter : List Char) : List Char :=
  let degStr :=
    if 0 < dp.2 then padZeros (w + 1 + dp.2) (formatFixed av dp.2)
    else padZeros w (formatFixed av 0)
  let degStr := applySep dp.1 degStr
  let degStr :=
    if neg ∧ cg.lc = [] then '-' :: degStr
    else if cg.sgn = ['+'] then '+' :: degStr
    else degStr
  degStr ++ cg.sepDeg ++ locLetter

/-- MinDec rendering branch of `Coord.Format` (src/geoc.go lines 166-177). -/
def fmtMinDec (av : ℚ) (cg : CoordGroups) (dp : Char × ℕ) (w : ℕ)
    (locLetter : List Char) : List Char :=
  let dq : ℤ := ⌊av⌋
  let minutes := (av - dq) * 60
  padZeros w (natChars dq.toNat) ++ cg.sepDeg ++
    applySep dp.1 (formatFixed minutes dp.2) ++ cg.sepMin ++ locLetter

/-- DMS rendering branch of `Coord.Format` (src/geoc.go lines 179-193),
including the compact sub-branch. -/
def fmtDMS (av : ℚ) (cg : CoordGroups) (dp : Char × ℕ) (w : ℕ)
    (locLetter : List Char) : List Char :=
  let dq : ℤ := ⌊av⌋
  let totalMin := (av - dq) * 60
  let mq : ℤ := ⌊totalMin⌋
  let sq := (totalMin - mq) * 60
  if cg.compact then
    padZeros w (natChars dq.toNat) ++ cg.sepDeg ++ padZeros 2 (formatFixed (mq : ℚ) 0) ++
      padZeros 2 (formatFixed sq 0) ++ locLetter
  else
    padZeros w (natChars dq.toNat) ++ cg.sepDeg ++ formatFixed (mq : ℚ) 0 ++ cg.sepMin ++
      applySep dp.1 (formatFixed sq dp.2) ++ cg.sepSec ++ locLetter

/-- Total rendering part of `Coord.Format` (everything after the range check in
src/geoc.go lines 102-193). -/
def renderFmt (v : ℚ) (loc : Location) (cg : CoordGroups) : List Char :=
  if ¬ cg.mn ≠ [] then
    fmtDegDec |v| (decide (v < 0)) cg (fmtPrec cg) (fmtWidth cg)
      (fmtLocLetter (decide (v < 0)) loc cg.lc)
  else if ¬ cg.sc ≠ [] then
    fmtMinDec |v| cg (fmtPrec cg) (fmtWidth cg) (fmtLocLetter (decide (v < 0)) loc cg.lc)
  else
    fmtDMS |v| cg (fmtPrec cg) (fmtWidth cg) (fmtLocLetter (decide (v < 0)) loc cg.lc)

/-- Effective location resolution in `Coord.Format`: the coordinate's own tag,
or the tag derived from the template's hemisphere letter. -/
def resolveLoc (l : Location) (lc : List Char) : Location :=
  match l with
  | .None =>
    if lc = ['N'] ∨ lc = ['S'] then .Lat
    else if lc = ['E'] ∨ lc = ['W'] then .Lon
    else .None
  | l => l

/-- `Coord.Format` from src/geoc.go. -/
def Format (c : Coord) (tmpl : List Char) : Except ParseError (List Char) :=
  match newCoordGroups tmpl with
  | .error _ => .error .invalidString
  | .ok cg =>
    let loc := resolveLoc c.loc cg.lc
    if loc = .Lat ∧ 90 < |c.value| then .error .outOfRange
    else if loc = .Lon ∧ 180 < |c.value| then .error .outOfRange
    else .ok (renderFmt c.value loc cg)

/-- Count of factors `p` in `n` (fuel-based). -/
def multPFAux (p : ℕ) : ℕ → ℕ → ℕ
  | 0, _ => 0
  | fuel + 1, n => if 2 ≤ p ∧ n ≠ 0 ∧ n % p = 0 then multPFAux p fuel (n / p) + 1 else 0

/-- Count of factors `p` in `n`. -/
def multPF (p n : ℕ) : ℕ := multPFAux p n n

/-- Model of `strconv.FormatFloat(v, 'f', -1, 64)`: shortest fixed decimal.
Any `float64` is a dyadic rational, hence has a finite decimal expansion; for a
rational value with a finite decimal expansion this prints the expansion with
the minimal number of fractional digits.  (Other rationals are outside the
domain of `float64`; they receive a fixed 17-digit rendering.) -/
def formatFloatShortest (q : ℚ) : List Char :=
  let p := max (multPF 2 q.den) (multPF 5 q.den)
  let body :=
    if (q.den : ℤ) ∣ q.num * 10 ^ p then formatFixed |q| p else formatFixed |q| 17
  if q < 0 then '-' :: body else body

/-- The fixed built-in templates of `Coord.String` (src/geoc.go lines 199-208). -/
def defaultTmpl : Location → List Char
  | .Lat => "48-33.0N".toList
  | .Lon => "048-33.0E".toList
  | .None => "48.557489".toList

/-- `Coord.String` from src/geoc.go: fixed template per location, decimal
fallback on formatting failure. -/
def CoordString (c : Coord) : List Char :=
  match Format c (defaultTmpl c.loc) with
  | .ok s => s
  | .error _ => formatFloatShortest c.value

/-- `Point.Format` from src/geoc.go. -/
def PointFormat (p : Point) (latFmt lonFmt separator : List Char) :
    Except ParseError (List Char) :=
  match Format p.lat latFmt with
  | .error e => .error e
  | .ok a =>
    match Format p.lon lonFmt with
    | .error e => .error e
    | .ok b => .ok (a ++ separator ++ b)

/-- `Point.String` from src/geoc.go: fixed templates, empty string on failure. -/
def PointString (p : Point) : List Char :=
  match PointFormat p "48-33.0N".toList "048-33.0E".toList [' '] with
  | .ok s => s
  | .error _ => []

/-! ### Digit-string infrastructure -/

theorem digitChar_isDigit (d : ℕ) (h : d < 10) : isDigitC (digitChar d) = true := by
  interval_cases d <;> decide

theorem natCharsAux_eq (fuel n : ℕ) (h : n ≤ fuel) :
    natCharsAux fuel n = ((Nat.digits 10 n).map digitChar).reverse := by
  induction fuel generalizing n with
  | zero =>
    have : n = 0 := Nat.le_zero.mp h
    subst this
    simp [natCharsAux]
  | succ fuel ih =>
    rw [natCharsAux]
    by_cases hn : n = 0
    · subst hn; simp
    · rw [if_neg hn]
      rw [ih (n / 10) (by omega)]
      rw [Nat.digits_def' (by norm_num : (1:ℕ) < 10) (Nat.pos_of_ne_zero hn)]
      simp

theorem natChars_eq_digits (n : ℕ) (h : n ≠ 0) :
    natChars n = ((Nat.digits 10 n).map digitChar).reverse := by
  rw [natChars, if_neg h, natCharsAux_eq n n le_rfl]

theorem natChars_all_digits (n : ℕ) : (natChars n).all isDigitC = true := by
  by_cases h : n = 0
  · subst h; decide
  · rw [natChars_eq_digits n h]
    simp only [List.all_eq_true, List.mem_reverse, List.mem_map]
    rintro c ⟨d, hd, rfl⟩
    exact digitChar_isDigit d (Nat.digits_lt_base (by norm_num) hd)

theorem natChars_ne_nil (n : ℕ) : natChars n ≠ [] := by
  by_cases h : n = 0
  · subst h; decide
  · rw [natChars_eq_digits n h]
    simp [Nat.digits_ne_nil_iff_ne_zero, h]

/-- The head of `l` (if any) fails the predicate `p`. -/
def headStops (p : Char → Bool) : List Char → Prop
  | [] => True
  | c :: _ => p c = false

theorem rhe_intCast (n : ℤ) : rhe (n : ℚ) = n := by
  rw [rhe]
  rw [Int.floor_intCast]
  norm_num

theorem rhe_natCast (n : ℕ) : rhe (n : ℚ) = n := by
  rw [show ((n : ℚ)) = ((n : ℤ) : ℚ) by push_cast; ring, rhe_intCast]

theorem formatFixed_nat (q : ℚ) (n : ℕ) (h : q = n) : formatFixed q 0 = natChars n := by
  subst h
  rw [formatFixed]
  simp only [pow_zero, mul_one, rhe_natCast, Int.toNat_natCast]
  simp

theorem formatFixed_dec (i f p : ℕ) (hp : 1 ≤ p) (hf : f < 10 ^ p) (q : ℚ)
    (hq : q = (i : ℚ) + (f : ℚ) / 10 ^ p) :
    formatFixed q p = natChars i ++ '.' :: padZeros p (natChars f) := by
  subst hq
  have h10 : (0 : ℚ) < 10 ^ p := by positivity
  have hqm : ((i : ℚ) + (f : ℚ) / 10 ^ p) * 10 ^ p = ((i * 10 ^ p + f : ℕ) : ℚ) := by
    push_cast
    field_simp
  rw [formatFixed, hqm, rhe_natCast]
  have hpne : p ≠ 0 := by omega
  simp only [Int.toNat_natCast, if_neg hpne]
  have hdiv : (i * 10 ^ p + f) / 10 ^ p = i := by
    rw [Nat.mul_comm i, Nat.mul_add_div (by positivity), Nat.div_eq_of_lt hf, Nat.add_zero]
  have hmod : (i * 10 ^ p + f) % 10 ^ p = f := by
    rw [Nat.add_comm, Nat.add_mul_mod_self_right, Nat.mod_eq_of_lt hf]
  rw [hdiv, hmod]

/-! ### Evaluation lemmas for the semantic evaluator -/

theorem parseDec_eq (s : List Char) (i f p : ℕ) (h : readNum s = some (i, f, p)) :
    parseDec s = some ((i : ℚ) + (f : ℚ) / 10 ^ p) := by
  simp [parseDec, h]

theorem getDegrees_ok (g : CoordGroups) (loc : Location) (q : ℚ)
    (h1 : ¬ g.deg = []) (h2 : ¬ (hasMark g.deg = true ∧ (¬ g.mn = [] ∨ ¬ g.sc = [])))
    (h3 : parseDec (normMark g.deg) = some q)
    (h4 : q ≤ (if g.lc = ['S'] ∨ g.lc = ['N'] ∨ loc = .Lat then (90 : ℚ) else 180)) :
    getDegrees g loc = .ok q := by
  simp only [getDegrees, if_neg h1, if_neg h2, h3, if_neg (not_lt.mpr h4)]

theorem getDegrees_err_range (g : CoordGroups) (loc : Location) (q : ℚ)
    (h1 : ¬ g.deg = []) (h2 : ¬ (hasMark g.deg = true ∧ (¬ g.mn = [] ∨ ¬ g.sc = [])))
    (h3 : parseDec (normMark g.deg) = some q)
    (h4 : (if g.lc = ['S'] ∨ g.lc = ['N'] ∨ loc = .Lat then (90 : ℚ) else 180) < q) :
    getDegrees g loc = .error .outOfRange := by
  simp only [getDegrees, if_neg h1, if_neg h2, h3, if_pos h4]

theorem getMinutes_zero (g : CoordGroups) (h : g.mn = []) : getMinutes g = .ok 0 := by
  rw [getMinutes, if_pos h]

theorem getMinutes_ok (g : CoordGroups) (q : ℚ)
    (h1 : ¬ g.mn = []) (h2 : ¬ (hasMark g.mn = true ∧ ¬ g.sc = []))
    (h3 : parseDec (normMark g.mn) = some q) (h4 : q < 60) :
    getMinutes g = .ok q := by
  rw [getMinutes, if_neg h1, if_neg h2, h3]
  simp only [checkLimits, if_pos h4]

theorem getMinutes_err_range (g : CoordGroups) (q : ℚ)
    (h1 : ¬ g.mn = []) (h2 : ¬ (hasMark g.mn = true ∧ ¬ g.sc = []))
    (h3 : parseDec (normMark g.mn) = some q) (h4 : ¬ q < 60) :
    getMinutes g = .error .outOfRange := by
  rw [getMinutes, if_neg h1, if_neg h2, h3]
  simp only [checkLimits, if_neg h4]

theorem getSeconds_zero (g : CoordGroups) (h : g.sc = []) : getSeconds g = .ok 0 := by
  rw [getSeconds, if_pos h]

theorem getSeconds_ok (g : CoordGroups) (q : ℚ)
    (h1 : ¬ g.sc = []) (h3 : parseDec (normMark g.sc) = some q) (h4 : q < 60) :
    getSeconds g = .ok q := by
  rw [getSeconds, if_neg h1, h3]
  simp only [checkLimits, if_pos h4]

theorem getSeconds_err_range (g : CoordGroups) (q : ℚ)
    (h1 : ¬ g.sc = []) (h3 : parseDec (normMark g.sc) = some q) (h4 : ¬ q < 60) :
    getSeconds g = .error .outOfRange := by
  rw [getSeconds, if_neg h1, h3]
  simp only [checkLimits, if_neg h4]

theorem getCoord_ok_pos (g : CoordGroups) (loc : Location) (d m s : ℚ)
    (h0 : checkSign g = .ok ()) (h1 : getLocation g = .ok loc)
    (h2 : getDegrees g loc = .ok d) (h3 : getMinutes g = .ok m) (h4 : getSeconds g = .ok s)
    (h5 : ¬ (g.sgn = ['-'] ∨ g.lc = ['S'] ∨ g.lc = ['W'])) :
    getCoord g = .ok ⟨d + m / 60 + s / 3600, loc⟩ := by
  simp only [getCoord, h0, h1, h2, h3, h4, if_neg h5]

theorem getCoord_ok_neg (g : CoordGroups) (loc : Location) (d m s : ℚ)
    (h0 : checkSign g = .ok ()) (h1 : getLocation g = .ok loc)
    (h2 : getDegrees g loc = .ok d) (h3 : getMinutes g = .ok m) (h4 : getSeconds g = .ok s)
    (h5 : g.sgn = ['-'] ∨ g.lc = ['S'] ∨ g.lc = ['W']) :
    getCoord g = .ok ⟨-(d + m / 60 + s / 3600), loc⟩ := by
  simp only [getCoord, h0, h1, h2, h3, h4, if_pos h5]

theorem getCoord_err_sign (g : CoordGroups) (e : ParseError)
    (h0 : checkSign g = .error e) : getCoord g = .error e := by
  simp only [getCoord, h0]

theorem getCoord_err_loc (g : CoordGroups) (e : ParseError)
    (h0 : checkSign g = .ok ()) (h1 : getLocation g = .error e) :
    getCoord g = .error e := by
  simp only [getCoord, h0, h1]

theorem getCoord_err_deg (g : CoordGroups) (loc : Location) (e : ParseError)
    (h0 : checkSign g = .ok ()) (h1 : getLocation g = .ok loc)
    (h2 : getDegrees g loc = .error e) : getCoord g = .error e := by
  simp only [getCoord, h0, h1, h2]

theorem getCoord_err_min (g : CoordGroups) (loc : Location) (d : ℚ) (e : ParseError)
    (h0 : checkSign g = .ok ()) (h1 : getLocation g = .ok loc)
    (h2 : getDegrees g loc = .ok d) (h3 : getMinutes g = .error e) :
    getCoord g = .error e := by
  simp only [getCoord, h0, h1, h2, h3]

theorem getCoord_err_sec (g : CoordGroups) (loc : Location) (d m : ℚ) (e : ParseError)
    (h0 : checkSign g = .ok ()) (h1 : getLocation g = .ok loc)
    (h2 : getDegrees g loc = .ok d) (h3 : getMinutes g = .ok m)
    (h4 : getSeconds g = .error e) : getCoord g = .error e := by
  simp only [getCoord, h0, h1, h2, h3, h4]

theorem Format_ok (c : Coord) (tmpl : List Char) (cg : CoordGroups)
    (h : newCoordGroups tmpl = .ok cg)
    (h1 : ¬ (resolveLoc c.loc cg.lc = .Lat ∧ 90 < |c.value|))
    (h2 : ¬ (resolveLoc c.loc cg.lc = .Lon ∧ 180 < |c.value|)) :
    Format c tmpl = .ok (renderFmt c.value (resolveLoc c.loc cg.lc) cg) := by
  simp only [Format, h, if_neg h1, if_neg h2]

theorem Format_err_template (c : Coord) (tmpl : List Char) (e : ParseError)
    (h : newCoordGroups tmpl = .error e) : Format c tmpl = .error .invalidString := by
  simp only [Format, h]

theorem Format_err_lat (c : Coord) (tmpl : List Char) (cg : CoordGroups)
    (h : newCoordGroups tmpl = .ok cg)
    (h1 : resolveLoc c.loc cg.lc = .Lat ∧ 90 < |c.value|) :
    Format c tmpl = .error .outOfRange := by
  simp only [Format, h, if_pos h1]

theorem Format_err_lon (c : Coord) (tmpl : List Char) (cg : CoordGroups)
    (h : newCoordGroups tmpl = .ok cg)
    (h1 : ¬ (resolveLoc c.loc cg.lc = .Lat ∧ 90 < |c.value|))
    (h2 : resolveLoc c.loc cg.lc = .Lon ∧ 180 < |c.value|) :
    Format c tmpl = .error .outOfRange := by
  simp only [Format, h, if_neg h1, if_pos h2]

theorem ParseCoord_eq (s : List Char) (g : CoordGroups)
    (h : newCoordGroups s = .ok g) : ParseCoord s = getCoord g := by
  rw [ParseCoord, h]

theorem ParseCoord_err (s : List Char) (e : ParseError)
    (h : newCoordGroups s = .error e) : ParseCoord s = .error e := by
  rw [ParseCoord, h]

theorem ParsePoint_err_groups (s : List Char) (e : ParseError)
    (h : newPointGroups s = .error e) : ParsePoint s = .error e := by
  simp only [ParsePoint, h]

theorem ParsePoint_err_lat (s : List Char) (g1 g2 : CoordGroups) (e : ParseError)
    (h : newPointGroups s = .ok (g1, g2)) (h1 : getCoord g1 = .error e) :
    ParsePoint s = .error e := by
  simp only [ParsePoint, h, h1]

theorem ParsePoint_err_latloc (s : List Char) (g1 g2 : CoordGroups) (c1 : Coord)
    (h : newPointGroups s = .ok (g1, g2)) (h1 : getCoord g1 = .ok c1)
    (hl : ¬ c1.loc = .Lat) : ParsePoint s = .error .invalidString := by
  simp only [ParsePoint, h, h1, if_pos hl]

theorem ParsePoint_err_lon (s : List Char) (g1 g2 : CoordGroups) (c1 : Coord)
    (e : ParseError) (h : newPointGroups s = .ok (g1, g2)) (h1 : getCoord g1 = .ok c1)
    (hl : c1.loc = .Lat) (h2 : getCoord g2 = .error e) : ParsePoint s = .error e := by
  simp only [ParsePoint, h, h1, hl, h2]
  simp

theorem ParsePoint_err_lonloc (s : List Char) (g1 g2 : CoordGroups) (c1 c2 : Coord)
    (h : newPointGroups s = .ok (g1, g2)) (h1 : getCoord g1 = .ok c1)
    (hl : c1.loc = .Lat) (h2 : getCoord g2 = .ok c2) (hl2 : ¬ c2.loc = .Lon) :
    ParsePoint s = .error .invalidString := by
  simp only [ParsePoint, h, h1, hl, h2]
  simp [hl2]

theorem ParsePoint_err_class (s : List Char) (g1 g2 : CoordGroups) (c1 c2 : Coord)
    (h : newPointGroups s = .ok (g1, g2)) (h1 : getCoord g1 = .ok c1)
    (hl : c1.loc = .Lat) (h2 : getCoord g2 = .ok c2) (hl2 : c2.loc = .Lon)
    (hc : ¬ getFormatClass g1 = getFormatClass g2) :
    ParsePoint s = .error .invalidString := by
  simp only [ParsePoint, h, h1, hl, h2, hl2]
  simp [hc]

theorem ParsePoint_ok (s : List Char) (g1 g2 : CoordGroups) (c1 c2 : Coord)
    (h : newPointGroups s = .ok (g1, g2)) (h1 : getCoord g1 = .ok c1)
    (hl : c1.loc = .Lat) (h2 : getCoord g2 = .ok c2) (hl2 : c2.loc = .Lon)
    (hc : getFormatClass g1 = getFormatClass g2) :
    ParsePoint s = .ok ⟨c1, c2⟩ := by
  simp only [ParsePoint, h, h1, hl, h2, hl2, hc]
  simp

/-- C10: the axis range limit is checked against the degrees component alone,
so `ParseCoord "90-30N"` succeeds and returns a latitude of 90.5, beyond the
90-degree axis limit. -/
theorem c10_parse_can_exceed_axis_limit :
    ParseCoord "90-30N".toList = .ok ⟨181 / 2, .Lat⟩ ∧ (90 : ℚ) < |(181 : ℚ) / 2| := by
  constructor
  · have hg : newCoordGroups "90-30N".toList =
        .ok ⟨[], ['9', '0'], ['3', '0'], [], ['N'], false, ['-'], [], []⟩ := by decide
    rw [ParseCoord_eq _ _ hg]
    rw [getCoord_ok_pos _ .Lat 90 30 0
      (by decide) (by decide)
      (getDegrees_ok _ _ _ (by decide) (by decide)
        (by rw [parseDec_eq _ 90 0 0 (by decide)]; norm_num) (by norm_num))
      (getMinutes_ok _ _ (by decide) (by decide)
        (by rw [parseDec_eq _ 30 0 0 (by decide)]; norm_num) (by norm_num))
      (getSeconds_zero _ (by decide))
      (by decide)]
    norm_num
  · rw [abs_of_pos (by norm_num)]
    norm_num

/-- C3 counterexample: the code rejects a degree value only when it is
strictly greater than the axis limit, so the limit itself is accepted:
`ParseCoord "90N"` succeeds with value 90, and formatting value 90 as a
latitude succeeds as well, contradicting the claim that any value not
strictly below the limit fails with `ErrOutOfRange`. -/
theorem c3_counterexample :
    ParseCoord "90N".toList = .ok ⟨90, .Lat⟩ ∧
    Format ⟨90, .Lat⟩ "48-33.0N".toList = .ok "90-0.0N".toList := by
  constructor
  · have hg : newCoordGroups "90N".toList =
        .ok ⟨[], ['9', '0'], [], [], ['N'], false, [], [], []⟩ := by decide
    rw [ParseCoord_eq _ _ hg]
    rw [getCoord_ok_pos _ .Lat 90 0 0
      (by decide) (by decide)
      (getDegrees_ok _ _ _ (by decide) (by decide)
        (by rw [parseDec_eq _ 90 0 0 (by decide)]; norm_num) (by norm_num))
      (getMinutes_zero _ (by decide))
      (getSeconds_zero _ (by decide))
      (by decide)]
    norm_num
  · have hg : newCoordGroups "48-33.0N".toList =
        .ok ⟨[], ['4', '8'], ['3', '3', '.', '0'], [], ['N'], false, ['-'], [], []⟩ := by
      decide
    rw [Format_ok _ _ _ hg (by simp [resolveLoc]) (by simp [resolveLoc])]
    show Except.ok (renderFmt 90 _ _) = _
    rw [renderFmt]
    norm_num
    rw [if_neg (by decide)]
    rw [show fmtPrec ⟨[], ['4', '8'], ['3', '3', '.', '0'], [], ['N'], false, ['-'], [],
      []⟩ = ('.', 1) from by decide]
    rw [fmtMinDec]
    simp [resolveLoc]
    rw [formatFixed_dec 0 0 1 (by norm_num) (by norm_num) _ (by norm_num)]
    decide

/-- C3 amended: in `getDegrees` the parsed degree value is rejected with
`ErrOutOfRange` exactly when it is strictly greater than the axis limit (the
limit itself is accepted), and `Coord.Format` fails with `ErrOutOfRange`
exactly when the resolved location is Latitude with `|value| > 90` or
Longitude with `|value| > 180` (an unspecified location is not range-checked). -/
theorem c3_amended :
    (∀ (g : CoordGroups) (loc : Location) (q : ℚ),
      ¬ g.deg = [] → ¬ (hasMark g.deg = true ∧ (¬ g.mn = [] ∨ ¬ g.sc = [])) →
      parseDec (normMark g.deg) = some q →
      getDegrees g loc =
        if (if g.lc = ['S'] ∨ g.lc = ['N'] ∨ loc = .Lat then (90 : ℚ) else 180) < q
        then .error .outOfRange else .ok q) ∧
    (∀ (c : Coord) (tmpl : List Char) (cg : CoordGroups),
      newCoordGroups tmpl = .ok cg →
      (Format c tmpl = .error .outOfRange ↔
        (resolveLoc c.loc cg.lc = .Lat ∧ 90 < |c.value|) ∨
        (resolveLoc c.loc cg.lc = .Lon ∧ 180 < |c.value|))) := by
  constructor
  · intro g loc q h1 h2 h3
    by_cases hlt : (if g.lc = ['S'] ∨ g.lc = ['N'] ∨ loc = .Lat then (90 : ℚ) else 180) < q
    · rw [if_pos hlt]
      exact getDegrees_err_range g loc q h1 h2 h3 hlt
    · rw [if_neg hlt]
      exact getDegrees_ok g loc q h1 h2 h3 (not_lt.mp hlt)
  · intro c tmpl cg h
    constructor
    · intro he
      by_contra hcon
      rw [not_or] at hcon
      rw [Format_ok c tmpl cg h hcon.1 hcon.2] at he
      exact absurd he (by simp)
    · rintro (h1 | h2)
      · exact Format_err_lat c tmpl cg h h1
      · refine Format_err_lon c tmpl cg h ?_ h2
        rintro ⟨ha, -⟩
        rw [h2.1] at ha
        exact absurd ha (by decide)

/-- C4: a successful single match with a 4-digit markless minutes field, empty
seconds and a hemisphere letter is split into 2-digit minutes and seconds and
marked compact; `"120-5749E"` parses to 435469/3600 = 120.96361… (within 1e-6
of 120.963611) as a longitude, and `"120-5760E"` fails with `ErrOutOfRange`. -/
theorem c4_compact :
    (∀ g : CoordGroups, g.mn.length = 4 → g.sc = [] → g.lc ≠ [] → ¬ hasMark g.mn = true →
      normalizeCompact g = { g with compact := true, sc := g.mn.drop 2, mn := g.mn.take 2 }) ∧
    ParseCoord "120-5749E".toList = .ok ⟨435469 / 3600, .Lon⟩ ∧
    |(435469 : ℚ) / 3600 - 120.963611| ≤ 1 / 1000000 ∧
    ParseCoord "120-5760E".toList = .error .outOfRange := by
  refine ⟨?_, ?_, ?_, ?_⟩
  · intro g h1 h2 h3 h4
    rw [normalizeCompact, if_pos ⟨h1, h2, h3, h4⟩]
  · have hg : newCoordGroups "120-5749E".toList =
        .ok ⟨[], ['1', '2', '0'], ['5', '7'], ['4', '9'], ['E'], true, ['-'], [], []⟩ := by
      decide
    rw [ParseCoord_eq _ _ hg]
    rw [getCoord_ok_pos _ .Lon 120 57 49
      (by decide) (by decide)
      (getDegrees_ok _ _ _ (by decide) (by decide)
        (by rw [parseDec_eq _ 120 0 0 (by decide)]; norm_num)
        (by rw [if_neg (by decide)]; norm_num))
      (getMinutes_ok _ _ (by decide) (by decide)
        (by rw [parseDec_eq _ 57 0 0 (by decide)]; norm_num) (by norm_num))
      (getSeconds_ok _ _ (by decide)
        (by rw [parseDec_eq _ 49 0 0 (by decide)]; norm_num) (by norm_num))
      (by decide)]
    norm_num
  · rw [abs_of_pos (by norm_num)]
    norm_num
  · have hg : newCoordGroups "120-5760E".toList =
        .ok ⟨[], ['1', '2', '0'], ['5', '7'], ['6', '0'], ['E'], true, ['-'], [], []⟩ := by
      decide
    rw [ParseCoord_eq _ _ hg]
    exact getCoord_err_sec _ .Lon 120 57 _
      (by decide) (by decide)
      (getDegrees_ok _ _ _ (by decide) (by decide)
        (by rw [parseDec_eq _ 120 0 0 (by decide)]; norm_num)
        (by rw [if_neg (by decide)]; norm_num))
      (getMinutes_ok _ _ (by decide) (by decide)
        (by rw [parseDec_eq _ 57 0 0 (by decide)]; norm_num) (by norm_num))
      (getSeconds_err_range _ 60 (by decide)
        (by rw [parseDec_eq _ 60 0 0 (by decide)]; norm_num) (by norm_num))

/-- Error kind of a failing `checkSign`: only `ErrInvalidCoord`. -/
theorem checkSign_err_kind (g : CoordGroups) (e : ParseError)
    (h : checkSign g = .error e) : e = .invalidCoord := by
  rw [checkSign] at h
  split_ifs at h <;> cases h <;> rfl

/-- Error kind of a failing `getLocation`: only `ErrInvalidCoord`. -/
theorem getLocation_err_kind (g : CoordGroups) (e : ParseError)
    (h : getLocation g = .error e) : e = .invalidCoord := by
  rw [getLocation] at h
  split_ifs at h <;> cases h <;> rfl

/-- C6: a sign together with a hemisphere letter always fails with
`ErrInvalidCoord` (in `checkSign`), and any group record whose degrees field
contains a decimal mark while the minutes or seconds field is non-empty fails
with `ErrInvalidCoord` — with or without a sign or letter, since every earlier
check (`checkSign`, `getLocation`) can also only fail with `ErrInvalidCoord`;
in particular `"-48N"`, `"48.5-30N"` and the signed letterless `"-48.5-30"`
fail with `ErrInvalidCoord`. -/
theorem c6_conflicts :
    (∀ g : CoordGroups, (g.sgn = ['+'] ∨ g.sgn = ['-']) → g.lc ≠ [] →
      getCoord g = .error .invalidCoord) ∧
    (∀ g : CoordGroups, hasMark g.deg = true → (¬ g.mn = [] ∨ ¬ g.sc = []) →
      getCoord g = .error .invalidCoord) ∧
    ParseCoord "-48N".toList = .error .invalidCoord ∧
    ParseCoord "48.5-30N".toList = .error .invalidCoord ∧
    ParseCoord "-48.5-30".toList = .error .invalidCoord := by
  refine ⟨?_, ?_, ?_, ?_, ?_⟩
  · intro g hs hl
    apply getCoord_err_sign
    have hne : ¬ g.sgn = [] := by rcases hs with h | h <;> simp [h]
    rw [checkSign, if_neg hne, if_pos ⟨hs, hl⟩]
  · intro g hm hms
    have hdegs : ∀ loc, getDegrees g loc = .error .invalidCoord := by
      intro loc
      by_cases hdeg : g.deg = []
      · rw [getDegrees, if_pos hdeg]
      · rw [getDegrees, if_neg hdeg, if_pos ⟨hm, hms⟩]
    cases hc : checkSign g with
    | error e =>
      rw [getCoord_err_sign g e hc, checkSign_err_kind g e hc]
    | ok u =>
      cases u
      cases hl : getLocation g with
      | error e =>
        rw [getCoord_err_loc g e hc hl, getLocation_err_kind g e hl]
      | ok loc =>
        exact getCoord_err_deg g loc _ hc hl (hdegs loc)
  · rw [ParseCoord_eq _ _ (by decide :
      newCoordGroups "-48N".toList =
        .ok ⟨['-'], ['4', '8'], [], [], ['N'], false, [], [], []⟩)]
    exact getCoord_err_sign _ _ (by decide)
  · rw [ParseCoord_eq _ _ (by decide :
      newCoordGroups "48.5-30N".toList =
        .ok ⟨[], ['4', '8', '.', '5'], ['3', '0'], [], ['N'], false, ['-'], [], []⟩)]
    exact getCoord_err_deg _ .Lat _ (by decide) (by decide) (by decide)
  · rw [ParseCoord_eq _ _ (by decide :
      newCoordGroups "-48.5-30".toList =
        .ok ⟨['-'], ['4', '8', '.', '5'], ['3', '0'], [], [], false, ['-'], [], []⟩)]
    exact getCoord_err_deg _ .None _ (by decide) (by decide) (by decide)

/-- C7 counterexample: point parsing does not perform the captured-length
check: in `"48Nx 120E"` the character `x` belongs to no occurrence (the two
matches capture 3 and 5 characters of the 9-character input), yet `ParsePoint`
succeeds. -/
theorem c7_counterexample :
    ParsePoint "48Nx 120E".toList = .ok ⟨⟨48, .Lat⟩, ⟨120, .Lon⟩⟩ ∧
    (findAll "48Nx 120E".toList 3).map rawLen = [3, 5] ∧
    "48Nx 120E".toList.length = 9 := by
  refine ⟨?_, by decide, by decide⟩
  have hg : newPointGroups "48Nx 120E".toList =
      .ok (⟨[], ['4', '8'], [], [], ['N'], false, [], [], []⟩,
           ⟨[], ['1', '2', '0'], [], [], ['E'], false, [], [], []⟩) := by decide
  have h1 : getCoord ⟨[], ['4', '8'], [], [], ['N'], false, [], [], []⟩ = .ok ⟨48, .Lat⟩ := by
    rw [getCoord_ok_pos _ .Lat 48 0 0
      (by decide) (by decide)
      (getDegrees_ok _ _ _ (by decide) (by decide)
        (by rw [parseDec_eq _ 48 0 0 (by decide)]; norm_num) (by norm_num))
      (getMinutes_zero _ (by decide))
      (getSeconds_zero _ (by decide))
      (by decide)]
    norm_num
  have h2 : getCoord ⟨[], ['1', '2', '0'], [], [], ['E'], false, [], [], []⟩ =
      .ok ⟨120, .Lon⟩ := by
    rw [getCoord_ok_pos _ .Lon 120 0 0
      (by decide) (by decide)
      (getDegrees_ok _ _ _ (by decide) (by decide)
        (by rw [parseDec_eq _ 120 0 0 (by decide)]; norm_num)
        (by rw [if_neg (by decide)]; norm_num))
      (getMinutes_zero _ (by decide))
      (getSeconds_zero _ (by decide))
      (by decide)]
    norm_num
  exact ParsePoint_ok _ _ _ _ _ hg h1 rfl h2 rfl (by decide)

/-- C7 amended: zero occurrences, more occurrences than requested, and (for a
single coordinate) a captured length differing from the input length each fail
with `ErrInvalidString`; the captured-length check is performed only by
`newCoordGroups`, not by point parsing. -/
theorem c7_amended :
    (∀ s : List Char, findAll s 2 = [] → newCoordGroups s = .error .invalidString) ∧
    (∀ (s : List Char) (r r2 : RawMatch) (rest : List RawMatch),
      findAll s 2 = r :: r2 :: rest → newCoordGroups s = .error .invalidString) ∧
    (∀ (s : List Char) (r : RawMatch), findAll s 2 = [r] → rawLen r ≠ s.length →
      newCoordGroups s = .error .invalidString) ∧
    (∀ s : List Char, (findAll s 3).length ≠ 2 → ParsePoint s = .error .invalidString) := by
  refine ⟨?_, ?_, ?_, ?_⟩
  · intro s h
    rw [newCoordGroups, h]
  · intro s r r2 rest h
    rw [newCoordGroups, h]
  · intro s r h hne
    rw [newCoordGroups, h]
    dsimp only
    rw [if_neg hne]
  · intro s h
    apply ParsePoint_err_groups
    rw [newPointGroups]
    rcases hfa : findAll s 3 with _ | ⟨r1, _ | ⟨r2, _ | ⟨r3, rest⟩⟩⟩
    · rfl
    · rfl
    · rw [hfa] at h
      exact absurd rfl h
    · rfl

/-- C5: `ParsePoint` succeeds only when exactly two occurrences are matched,
with the first evaluating to a Latitude, the second to a Longitude, and both
of the same format class; each violation yields `ErrInvalidString`. -/
theorem c5_parsepoint :
    (∀ (s : List Char) (g1 g2 : CoordGroups), newPointGroups s = .ok (g1, g2) →
      (findAll s 3).length = 2) ∧
    (∀ (s : List Char) (p : Point), ParsePoint s = .ok p →
      ∃ g1 g2, newPointGroups s = .ok (g1, g2) ∧ getCoord g1 = .ok p.lat ∧
        p.lat.loc = .Lat ∧ getCoord g2 = .ok p.lon ∧ p.lon.loc = .Lon ∧
        getFormatClass g1 = getFormatClass g2) ∧
    (∀ (s : List Char) (g1 g2 : CoordGroups) (c1 : Coord),
      newPointGroups s = .ok (g1, g2) → getCoord g1 = .ok c1 → ¬ c1.loc = .Lat →
      ParsePoint s = .error .invalidString) ∧
    (∀ (s : List Char) (g1 g2 : CoordGroups) (c1 c2 : Coord),
      newPointGroups s = .ok (g1, g2) → getCoord g1 = .ok c1 → c1.loc = .Lat →
      getCoord g2 = .ok c2 → ¬ c2.loc = .Lon →
      ParsePoint s = .error .invalidString) ∧
    (∀ (s : List Char) (g1 g2 : CoordGroups) (c1 c2 : Coord),
      newPointGroups s = .ok (g1, g2) → getCoord g1 = .ok c1 → c1.loc = .Lat →
      getCoord g2 = .ok c2 → c2.loc = .Lon → ¬ getFormatClass g1 = getFormatClass g2 →
      ParsePoint s = .error .invalidString) := by
  refine ⟨?_, ?_, ?_, ?_, ?_⟩
  · intro s g1 g2 h
    rw [newPointGroups] at h
    rcases hfa : findAll s 3 with _ | ⟨r1, _ | ⟨r2, _ | ⟨r3, rest⟩⟩⟩ <;> rw [hfa] at h
    · exact absurd h (by simp)
    · exact absurd h (by simp)
    · rfl
    · exact absurd h (by simp)
  · intro s p h
    rw [ParsePoint] at h
    rcases hng : newPointGroups s with e | ⟨g1, g2⟩ <;> rw [hng] at h
    · exact absurd h (by simp)
    dsimp only at h
    refine ⟨g1, g2, rfl, ?_⟩
    rcases h1 : getCoord g1 with e | c1 <;> rw [h1] at h
    · exact absurd h (by simp)
    dsimp only at h
    by_cases hl1 : c1.loc = .Lat
    · rw [if_neg (show ¬ c1.loc ≠ .Lat from by simp [hl1])] at h
      rcases h2 : getCoord g2 with e | c2 <;> rw [h2] at h
      · exact absurd h (by simp)
      dsimp only at h
      by_cases hl2 : c2.loc = .Lon
      · rw [if_neg (show ¬ c2.loc ≠ .Lon from by simp [hl2])] at h
        by_cases hc : getFormatClass g1 = getFormatClass g2
        · rw [if_neg (show ¬ getFormatClass g1 ≠ getFormatClass g2 from by simp [hc])] at h
          have hp : Point.mk c1 c2 = p := by simpa using h
          subst hp
          exact ⟨rfl, hl1, rfl, hl2, hc⟩
        · rw [if_pos hc] at h
          exact absurd h (by simp)
      · rw [if_pos hl2] at h
        exact absurd h (by simp)
    · rw [if_pos hl1] at h
      exact absurd h (by simp)
  · exact fun s g1 g2 c1 h h1 hl => ParsePoint_err_latloc s g1 g2 c1 h h1 hl
  · exact fun s g1 g2 c1 c2 h h1 hl h2 hl2 =>
      ParsePoint_err_lonloc s g1 g2 c1 c2 h h1 hl h2 hl2
  · exact fun s g1 g2 c1 c2 h h1 hl h2 hl2 hc =>
      ParsePoint_err_class s g1 g2 c1 c2 h h1 hl h2 hl2 hc

/-! ### Head and last structure of rendered output (for C8) -/

/-- The list starts with an ASCII digit. -/
def headDigit : List Char → Prop
  | [] => False
  | c :: _ => isDigitC c = true

theorem headDigit_natChars (n : ℕ) : headDigit (natChars n) := by
  have h1 := natChars_ne_nil n
  have h2 := natChars_all_digits n
  rcases hn : natChars n with _ | ⟨c, t⟩
  · exact absurd hn h1
  · rw [hn] at h2
    simp only [List.all_cons, Bool.and_eq_true] at h2
    exact h2.1

theorem headDigit_append (a b : List Char) (h : headDigit a) : headDigit (a ++ b) := by
  rcases a with _ | ⟨c, t⟩
  · exact absurd h (by simp [headDigit])
  · exact h

theorem headDigit_padZeros (w : ℕ) (s : List Char) (h : headDigit s) :
    headDigit (padZeros w s) := by
  rw [padZeros]
  rcases hk : w - s.length with _ | k
  · simpa using h
  · rw [List.replicate_succ]
    exact (by decide : isDigitC '0' = true)

theorem headDigit_commaize (s : List Char) (h : headDigit s) : headDigit (commaize s) := by
  rcases s with _ | ⟨c, t⟩
  · exact absurd h (by simp [headDigit])
  · have hc : isDigitC c = true := h
    rw [commaize, if_neg (by rintro rfl; exact absurd hc (by decide))]
    exact hc

theorem headDigit_applySep (d : Char) (s : List Char) (h : headDigit s) :
    headDigit (applySep d s) := by
  rw [applySep]
  split_ifs
  · exact headDigit_commaize s h
  · exact h

theorem headDigit_formatFixed (q : ℚ) (p : ℕ) : headDigit (formatFixed q p) := by
  rw [formatFixed]
  split_ifs
  · exact headDigit_natChars _
  · exact headDigit_append _ _ (headDigit_natChars _)

theorem headDigit_head_ne (s : List Char) (h : headDigit s) (c : Char)
    (hc : isDigitC c = false) : s.head? ≠ some c := by
  rcases s with _ | ⟨d, t⟩
  · exact absurd h (by simp [headDigit])
  · have hd : isDigitC d = true := h
    intro he
    have hdc : d = c := by simpa using he
    rw [hdc, hc] at hd
    exact absurd hd (by simp)

/-- The hemisphere letter emitted by `renderFmt` for resolved location `loc`
and value `v`. -/
def outLetter (v : ℚ) (loc : Location) : Char :=
  if loc = .Lat then (if v < 0 then 'S' else 'N') else (if v < 0 then 'W' else 'E')

theorem fmtLocLetter_decide (v : ℚ) (loc : Location) (lc : List Char) (h : lc ≠ []) :
    fmtLocLetter (decide (v < 0)) loc lc = [outLetter v loc] := by
  rw [fmtLocLetter, if_pos h, outLetter]
  by_cases hl : loc = .Lat <;> by_cases hv : v < 0 <;> simp [hl, hv]

theorem fmtDegDec_last (av : ℚ) (neg : Bool) (cg : CoordGroups) (dp : Char × ℕ)
    (w : ℕ) (x : Char) : (fmtDegDec av neg cg dp w [x]).getLast? = some x := by
  rw [fmtDegDec]
  split_ifs <;> simp [List.getLast?_append, List.getLast?_cons]

theorem fmtMinDec_last (av : ℚ) (cg : CoordGroups) (dp : Char × ℕ)
    (w : ℕ) (x : Char) : (fmtMinDec av cg dp w [x]).getLast? = some x := by
  rw [fmtMinDec]
  simp [List.getLast?_append]

theorem fmtDMS_last (av : ℚ) (cg : CoordGroups) (dp : Char × ℕ)
    (w : ℕ) (x : Char) : (fmtDMS av cg dp w [x]).getLast? = some x := by
  rw [fmtDMS]
  split_ifs <;> simp [List.getLast?_append]

theorem renderFmt_last (v : ℚ) (loc : Location) (cg : CoordGroups) (h : cg.lc ≠ []) :
    (renderFmt v loc cg).getLast? = some (outLetter v loc) := by
  rw [renderFmt]
  split_ifs <;> rw [fmtLocLetter_decide v loc cg.lc h]
  · exact fmtDMS_last _ _ _ _ _
  · exact fmtMinDec_last _ _ _ _ _
  · exact fmtDegDec_last _ _ _ _ _ _

theorem fmtMinDec_headDigit (av : ℚ) (cg : CoordGroups) (dp : Char × ℕ)
    (w : ℕ) (ll : List Char) : headDigit (fmtMinDec av cg dp w ll) := by
  rw [fmtMinDec]
  exact headDigit_append _ _ (headDigit_append _ _ (headDigit_append _ _
    (headDigit_append _ _ (headDigit_padZeros _ _ (headDigit_natChars _)))))

theorem fmtDMS_headDigit (av : ℚ) (cg : CoordGroups) (dp : Char × ℕ)
    (w : ℕ) (ll : List Char) : headDigit (fmtDMS av cg dp w ll) := by
  rw [fmtDMS]
  split_ifs
  · exact headDigit_append _ _ (headDigit_append _ _ (headDigit_append _ _
      (headDigit_append _ _ (headDigit_padZeros _ _ (headDigit_natChars _)))))
  · exact headDigit_append _ _ (headDigit_append _ _ (headDigit_append _ _
      (headDigit_append _ _ (headDigit_append _ _ (headDigit_append _ _
        (headDigit_padZeros _ _ (headDigit_natChars _)))))))

theorem fmtDegDec_head_dash (av : ℚ) (neg : Bool) (cg : CoordGroups) (dp : Char × ℕ)
    (w : ℕ) (ll : List Char) (h : neg = true ∧ cg.lc = []) :
    (fmtDegDec av neg cg dp w ll).head? = some '-' := by
  rw [fmtDegDec]
  simp only [if_pos h]
  simp

theorem fmtDegDec_head_ne_dash (av : ℚ) (neg : Bool) (cg : CoordGroups) (dp : Char × ℕ)
    (w : ℕ) (ll : List Char) (h : ¬ (neg = true ∧ cg.lc = [])) :
    (fmtDegDec av neg cg dp w ll).head? ≠ some '-' := by
  rw [fmtDegDec]
  simp only [if_neg h]
  by_cases hp : cg.sgn = ['+']
  · simp only [if_pos hp]
    simp
  · simp only [if_neg hp]
    refine headDigit_head_ne _ ?_ '-' (by decide)
    refine headDigit_append _ _ (headDigit_append _ _ (headDigit_applySep _ _ ?_))
    split_ifs <;> exact headDigit_padZeros _ _ (headDigit_formatFixed _ _)

theorem renderFmt_head_minus (v : ℚ) (loc : Location) (cg : CoordGroups) :
    (renderFmt v loc cg).head? = some '-' ↔ (v < 0 ∧ cg.lc = [] ∧ cg.mn = []) := by
  rw [renderFmt]
  by_cases hmn : cg.mn = []
  · rw [if_pos (by simpa using hmn)]
    by_cases hneg : v < 0 ∧ cg.lc = []
    · rw [fmtDegDec_head_dash _ _ _ _ _ _ ⟨by simpa using hneg.1, hneg.2⟩]
      simp [hneg, hmn]
    · constructor
      · intro hh
        refine absurd hh (fmtDegDec_head_ne_dash _ _ _ _ _ _ ?_)
        rintro ⟨h1, h2⟩
        exact hneg ⟨by simpa using h1, h2⟩
      · rintro ⟨h1, h2, -⟩
        exact absurd ⟨h1, h2⟩ hneg
  · rw [if_neg (by simpa using hmn)]
    by_cases hsc : cg.sc = []
    · rw [if_pos (by simpa using hsc)]
      constructor
      · intro hh
        exact absurd hh (headDigit_head_ne _ (fmtMinDec_headDigit _ _ _ _ _) '-' (by decide))
      · rintro ⟨-, -, hc⟩
        exact absurd hc hmn
    · rw [if_neg (by simpa using hsc)]
      constructor
      · intro hh
        exact absurd hh (headDigit_head_ne _ (fmtDMS_headDigit _ _ _ _ _) '-' (by decide))
      · rintro ⟨-, -, hc⟩
        exact absurd hc hmn

/-! ### Specification-side definitions for C2 (written from the spec text,
to be compared with the evaluator from the source) -/

/-- Modelled from the spec §4.3 step 2: `LocationTag` derived from the letter
(N/S→Latitude, E/W→Longitude, none→Unspecified). -/
def specLocTag (lc : List Char) : Location :=
  if lc = ['N'] ∨ lc = ['S'] then .Lat
  else if lc = ['E'] ∨ lc = ['W'] then .Lon
  else .None

/-- Modelled from the spec §4.3 step 6: negate if `sign == "-"` or the
hemisphere letter is S or W. -/
def specSign (g : CoordGroups) : ℚ :=
  if g.sgn = ['-'] ∨ g.lc = ['S'] ∨ g.lc = ['W'] then -1 else 1

/-- Numeric degrees component of the matched text. -/
def specDeg (g : CoordGroups) : ℚ := (parseDec (normMark g.deg)).getD 0

/-- Numeric minutes component of the matched text (0 when empty). -/
def specMin (g : CoordGroups) : ℚ :=
  if g.mn = [] then 0 else (parseDec (normMark g.mn)).getD 0

/-- Numeric seconds component of the matched text (0 when empty). -/
def specSec (g : CoordGroups) : ℚ :=
  if g.sc = [] then 0 else (parseDec (normMark g.sc)).getD 0

theorem getLocation_ok_spec (g : CoordGroups) (loc : Location)
    (h : getLocation g = .ok loc) : loc = specLocTag g.lc := by
  rw [getLocation] at h
  rw [specLocTag]
  by_cases h1 : g.lc = ['N'] ∨ g.lc = ['S']
  · rw [if_pos h1] at h
    rw [if_pos h1]
    exact (Except.ok.inj h).symm
  rw [if_neg h1] at h
  rw [if_neg h1]
  by_cases h2 : g.lc = ['E'] ∨ g.lc = ['W']
  · rw [if_pos h2] at h
    rw [if_pos h2]
    exact (Except.ok.inj h).symm
  rw [if_neg h2] at h
  rw [if_neg h2]
  by_cases h3 : g.lc = []
  · rw [if_pos h3] at h
    exact (Except.ok.inj h).symm
  · rw [if_neg h3] at h
    exact absurd h (by simp)

theorem getDegrees_ok_spec (g : CoordGroups) (loc : Location) (d : ℚ)
    (h : getDegrees g loc = .ok d) : specDeg g = d := by
  rw [getDegrees] at h
  by_cases h1 : g.deg = []
  · rw [if_pos h1] at h
    exact absurd h (by simp)
  rw [if_neg h1] at h
  by_cases h2 : hasMark g.deg = true ∧ (g.mn ≠ [] ∨ g.sc ≠ [])
  · rw [if_pos h2] at h
    exact absurd h (by simp)
  rw [if_neg h2] at h
  rcases hp : parseDec (normMark g.deg) with _ | q <;> rw [hp] at h
  · exact absurd h (by simp)
  dsimp only at h
  by_cases h3 : q > (if g.lc = ['S'] ∨ g.lc = ['N'] ∨ loc = .Lat then (90 : ℚ) else 180)
  · rw [if_pos h3] at h
    exact absurd h (by simp)
  rw [if_neg h3] at h
  rw [specDeg, hp]
  simpa using Except.ok.inj h

theorem getMinutes_ok_spec (g : CoordGroups) (m : ℚ)
    (h : getMinutes g = .ok m) : specMin g = m := by
  rw [getMinutes] at h
  rw [specMin]
  by_cases h1 : g.mn = []
  · rw [if_pos h1] at h
    rw [if_pos h1]
    simpa using Except.ok.inj h
  rw [if_neg h1] at h
  rw [if_neg h1]
  by_cases h2 : hasMark g.mn = true ∧ g.sc ≠ []
  · rw [if_pos h2] at h
    exact absurd h (by simp)
  rw [if_neg h2] at h
  rcases hp : parseDec (normMark g.mn) with _ | q <;> rw [hp] at h
  · exact absurd h (by simp)
  dsimp only [checkLimits] at h
  by_cases h3 : q < 60
  · rw [if_pos h3] at h
    simpa using Except.ok.inj h
  · rw [if_neg h3] at h
    exact absurd h (by simp)

theorem getSeconds_ok_spec (g : CoordGroups) (s : ℚ)
    (h : getSeconds g = .ok s) : specSec g = s := by
  rw [getSeconds] at h
  rw [specSec]
  by_cases h1 : g.sc = []
  · rw [if_pos h1] at h
    rw [if_pos h1]
    simpa using Except.ok.inj h
  rw [if_neg h1] at h
  rw [if_neg h1]
  rcases hp : parseDec (normMark g.sc) with _ | q <;> rw [hp] at h
  · exact absurd h (by simp)
  dsimp only [checkLimits] at h
  by_cases h3 : q < 60
  · rw [if_pos h3] at h
    simpa using Except.ok.inj h
  · rw [if_neg h3] at h
    exact absurd h (by simp)

/-- C2: whenever the semantic evaluator succeeds, the produced value is the
spec-side assembly `± (degrees + minutes/60 + seconds/3600)` with the sign
determined by the sign character or a S/W hemisphere letter, and the location
tag is the spec-side letter mapping. -/
theorem c2_evaluation (g : CoordGroups) (c : Coord) (h : getCoord g = .ok c) :
    c.value = specSign g * (specDeg g + specMin g / 60 + specSec g / 3600) ∧
    c.loc = specLocTag g.lc := by
  rw [getCoord] at h
  rcases h0 : checkSign g with e | u <;> rw [h0] at h
  · exact absurd h (by simp)
  dsimp only at h
  rcases h1 : getLocation g with e | loc <;> rw [h1] at h
  · exact absurd h (by simp)
  dsimp only at h
  rcases h2 : getDegrees g loc with e | d <;> rw [h2] at h
  · exact absurd h (by simp)
  dsimp only at h
  rcases h3 : getMinutes g with e | m <;> rw [h3] at h
  · exact absurd h (by simp)
  dsimp only at h
  rcases h4 : getSeconds g with e | s <;> rw [h4] at h
  · exact absurd h (by simp)
  dsimp only at h
  have hc : (Coord.mk (if g.sgn = ['-'] ∨ g.lc = ['S'] ∨ g.lc = ['W']
      then -(d + m / 60 + s / 3600) else d + m / 60 + s / 3600) loc) = c := by
    simpa using h
  subst hc
  refine ⟨?_, getLocation_ok_spec g loc h1⟩
  rw [getDegrees_ok_spec g loc d h2, getMinutes_ok_spec g m h3, getSeconds_ok_spec g s h4]
  rw [specSign]
  split_ifs with hs
  · ring
  · ring

theorem Format_ok_inv (c : Coord) (tmpl : List Char) (cg : CoordGroups) (out : List Char)
    (h : newCoordGroups tmpl = .ok cg) (hf : Format c tmpl = .ok out) :
    out = renderFmt c.value (resolveLoc c.loc cg.lc) cg := by
  simp only [Format, h] at hf
  split_ifs at hf
  exact (Except.ok.inj hf).symm

theorem getFormatClass_degDec_iff (cg : CoordGroups) :
    getFormatClass cg = .degDec ↔ cg.mn = [] := by
  rw [getFormatClass]
  split_ifs with h1 h2
  · simp [h1]
  · simp [h1]
  · constructor
    · intro hh
      exact absurd hh (by simp)
    · intro hh
      exact absurd hh h1

/-- C8 counterexample: formatting the negative value -48.5 with the
letterless MinDec template `"48-30"` emits no leading `-` sign, contradicting
the claim that every letterless template yields a signed rendering. -/
theorem c8_counterexample :
    Format ⟨-(97 / 2), .None⟩ "48-30".toList = .ok "48-30".toList ∧
    (-(97 / 2) : ℚ) < 0 ∧
    "48-30".toList.head? ≠ some '-' := by
  refine ⟨?_, by norm_num, by decide⟩
  have hfl : ⌊(97 / 2 : ℚ)⌋ = 48 := by
    rw [Int.floor_eq_iff]
    norm_num
  have hg : newCoordGroups "48-30".toList =
      .ok ⟨[], ['4', '8'], ['3', '0'], [], [], false, ['-'], [], []⟩ := by decide
  rw [Format_ok _ _ _ hg (by simp [resolveLoc]) (by simp [resolveLoc])]
  show Except.ok (renderFmt (-(97 / 2)) _ _) = _
  rw [renderFmt]
  norm_num
  rw [if_neg (by decide)]
  rw [show fmtPrec ⟨[], ['4', '8'], ['3', '0'], [], [], false, ['-'], [], []⟩ = ('.', 0)
    from by decide]
  rw [fmtMinDec]
  simp
  rw [show |(97 / 2 : ℚ)| = 97 / 2 from abs_of_pos (by norm_num)]
  rw [hfl]
  rw [formatFixed_nat _ 30 (by rw [Int.fract, hfl]; push_cast; norm_num)]
  decide

/-- C8 amended: for a negative value, a template with a hemisphere letter
yields output that ends with the flipped letter (S for latitude, W otherwise)
and does not start with `-`; a template without a hemisphere letter yields a
leading `-` exactly when the template is of the DecimalDegrees class. -/
theorem c8_amended (c : Coord) (tmpl : List Char) (cg : CoordGroups) (out : List Char)
    (h : newCoordGroups tmpl = .ok cg) (hneg : c.value < 0)
    (hf : Format c tmpl = .ok out) :
    (cg.lc ≠ [] →
      out.getLast? = some (if resolveLoc c.loc cg.lc = .Lat then 'S' else 'W') ∧
      out.head? ≠ some '-') ∧
    (cg.lc = [] → (out.head? = some '-' ↔ getFormatClass cg = .degDec)) := by
  have hout := Format_ok_inv c tmpl cg out h hf
  subst hout
  constructor
  · intro hlc
    constructor
    · rw [renderFmt_last _ _ _ hlc]
      rw [outLetter]
      by_cases hl : resolveLoc c.loc cg.lc = .Lat <;> simp [hl, hneg]
    · intro hh
      rcases (renderFmt_head_minus _ _ _).mp hh with ⟨-, h2, -⟩
      exact hlc h2
  · intro hlc
    rw [renderFmt_head_minus, getFormatClass_degDec_iff]
    constructor
    · rintro ⟨-, -, hmn⟩
      exact hmn
    · intro hmn
      exact ⟨hneg, hlc, hmn⟩

/-- Witness for C8 (amended): formatting -48.5 with template `"48-33.0N"`
yields `"48-30.0S"`, ending in the flipped letter S with no sign. -/
theorem c8_witness :
    "48-30.0S".toList.getLast? =
      some (if resolveLoc (Coord.mk (-(97 / 2)) .Lat).loc ['N'] = .Lat then 'S' else 'W') ∧
    "48-30.0S".toList.head? ≠ some '-' := by
  have hfl : ⌊(97 / 2 : ℚ)⌋ = 48 := by
    rw [Int.floor_eq_iff]
    norm_num
  have hg : newCoordGroups "48-33.0N".toList =
      .ok ⟨[], ['4', '8'], ['3', '3', '.', '0'], [], ['N'], false, ['-'], [], []⟩ := by
    decide
  have hf : Format ⟨-(97 / 2), .Lat⟩ "48-33.0N".toList = .ok "48-30.0S".toList := by
    rw [Format_ok _ _ _ hg
      (by rintro ⟨-, habs⟩; rw [abs_neg, abs_of_pos (by norm_num)] at habs; norm_num at habs)
      (by rintro ⟨hl, -⟩; exact absurd hl (by decide))]
    show Except.ok (renderFmt (-(97 / 2)) _ _) = _
    rw [renderFmt]
    norm_num
    rw [if_neg (by decide)]
    rw [show fmtPrec ⟨[], ['4', '8'], ['3', '3', '.', '0'], [], ['N'], false, ['-'], [],
      []⟩ = ('.', 1) from by decide]
    rw [fmtMinDec]
    simp [resolveLoc]
    rw [show |(97 / 2 : ℚ)| = 97 / 2 from abs_of_pos (by norm_num)]
    rw [hfl]
    rw [formatFixed_dec 30 0 1 (by norm_num) (by norm_num) _
      (by rw [Int.fract, hfl]; push_cast; norm_num)]
    decide
  exact (c8_amended ⟨-(97 / 2), .Lat⟩ _ _ _ hg (by norm_num) hf).1 (by decide)

/-- Witness for C2: the evaluator output for the matched groups of `"48-30S"`
satisfies the spec-side assembly equations. -/
theorem c2_witness :
    (Coord.mk (-(97 / 2)) .Lat).value =
      specSign ⟨[], ['4', '8'], ['3', '0'], [], ['S'], false, ['-'], [], []⟩ *
        (specDeg ⟨[], ['4', '8'], ['3', '0'], [], ['S'], false, ['-'], [], []⟩ +
          specMin ⟨[], ['4', '8'], ['3', '0'], [], ['S'], false, ['-'], [], []⟩ / 60 +
          specSec ⟨[], ['4', '8'], ['3', '0'], [], ['S'], false, ['-'], [], []⟩ / 3600) ∧
    (Coord.mk (-(97 / 2)) .Lat).loc =
      specLocTag (⟨[], ['4', '8'], ['3', '0'], [], ['S'], false, ['-'], [], []⟩ :
        CoordGroups).lc := by
  apply c2_evaluation
  rw [getCoord_ok_neg _ .Lat 48 30 0
    (by decide) (by decide)
    (getDegrees_ok _ _ _ (by decide) (by decide)
      (by rw [parseDec_eq _ 48 0 0 (by decide)]; norm_num) (by norm_num))
    (getMinutes_ok _ _ (by decide) (by decide)
      (by rw [parseDec_eq _ 30 0 0 (by decide)]; norm_num) (by norm_num))
    (getSeconds_zero _ (by decide))
    (by decide)]
  norm_num

/-- Witness for C3 (amended): degrees 95 with letter N exceed the 90 limit and
fail with `ErrOutOfRange`. -/
theorem c3_witness :
    getDegrees ⟨[], ['9', '5'], [], [], ['N'], false, [], [], []⟩ .Lat =
      .error .outOfRange := by
  rw [c3_amended.1 ⟨[], ['9', '5'], [], [], ['N'], false, [], [], []⟩ .Lat 95
    (by decide) (by decide) (by rw [parseDec_eq _ 95 0 0 (by decide)]; norm_num)]
  rw [if_pos (by rw [if_pos (by decide)]; norm_num)]

/-- Witness for C4: the compact 4-digit minutes field of `120-5749E`-style
groups is split into minutes 57 and seconds 49. -/
theorem c4_witness :
    normalizeCompact ⟨[], ['1', '2', '0'], ['5', '7', '4', '9'], [], ['E'], false,
      ['-'], [], []⟩ =
    ⟨[], ['1', '2', '0'], ['5', '7'], ['4', '9'], ['E'], true, ['-'], [], []⟩ :=
  (c4_compact.1 _ (by decide) (by decide) (by decide) (by decide)).trans (by decide)

/-- Witness for C5: `"48N 120E"` yields exactly two matched occurrences. -/
theorem c5_witness : (findAll "48N 120E".toList 3).length = 2 :=
  c5_parsepoint.1 _
    ⟨[], ['4', '8'], [], [], ['N'], false, [], [], []⟩
    ⟨[], ['1', '2', '0'], [], [], ['E'], false, [], [], []⟩ (by decide)

/-- Witness for C6: a `+` sign together with letter N fails with
`ErrInvalidCoord`. -/
theorem c6_witness :
    getCoord ⟨['+'], ['4', '8'], [], [], ['N'], false, [], [], []⟩ =
      .error .invalidCoord ∧
    getCoord ⟨['-'], ['4', '8', '.', '5'], ['3', '0'], [], [], false, ['-'], [], []⟩ =
      .error .invalidCoord :=
  ⟨c6_conflicts.1 _ (Or.inl rfl) (by decide),
   c6_conflicts.2.1 _ (by decide) (Or.inl (by decide))⟩

/-- Witness for C7 (amended): a string with no digits yields zero occurrences
and `ErrInvalidString`. -/
theorem c7_witness : newCoordGroups "xy".toList = .error .invalidString :=
  c7_amended.1 _ (by decide)

/-- C9: `Coord.String` and `Point.String` are total by construction; they use
the fixed built-in templates, return the `Format` output when it succeeds, and
otherwise return the plain-decimal fallback (for a coordinate) or the empty
string (for a point) — in particular a latitude beyond 90 falls back. -/
theorem c9_string_total :
    (∀ c : Coord,
      (∃ out, Format c (defaultTmpl c.loc) = .ok out ∧ CoordString c = out) ∨
      (∃ e, Format c (defaultTmpl c.loc) = .error e ∧
        CoordString c = formatFloatShortest c.value)) ∧
    defaultTmpl .Lat = "48-33.0N".toList ∧
    defaultTmpl .Lon = "048-33.0E".toList ∧
    defaultTmpl .None = "48.557489".toList ∧
    (∀ c : Coord, c.loc = .Lat → 90 < |c.value| →
      CoordString c = formatFloatShortest c.value) ∧
    (∀ p : Point,
      (∃ out, PointFormat p "48-33.0N".toList "048-33.0E".toList [' '] = .ok out ∧
        PointString p = out) ∨
      (∃ e, PointFormat p "48-33.0N".toList "048-33.0E".toList [' '] = .error e ∧
        PointString p = [])) := by
  refine ⟨?_, rfl, rfl, rfl, ?_, ?_⟩
  · intro c
    rcases hF : Format c (defaultTmpl c.loc) with e | out
    · exact Or.inr ⟨e, rfl, by rw [CoordString, hF]⟩
    · exact Or.inl ⟨out, rfl, by rw [CoordString, hF]⟩
  · intro c hl hv
    have hg : newCoordGroups (defaultTmpl .Lat) =
        .ok ⟨[], ['4', '8'], ['3', '3', '.', '0'], [], ['N'], false, ['-'], [], []⟩ := by
      decide
    have hF : Format c (defaultTmpl c.loc) = .error .outOfRange := by
      rw [hl]
      exact Format_err_lat c _ _ hg (by rw [hl]; exact ⟨rfl, hv⟩)
    rw [CoordString, hF]
  · intro p
    rcases hF : PointFormat p "48-33.0N".toList "048-33.0E".toList [' '] with e | out
    · exact Or.inr ⟨e, rfl, by rw [PointString, hF]⟩
    · exact Or.inl ⟨out, rfl, by rw [PointString, hF]⟩

/-- Witness for C9: a latitude of 91 exceeds the default template's range, so
`Coord.String` returns the plain-decimal fallback. -/
theorem c9_witness :
    CoordString ⟨91, .Lat⟩ = formatFloatShortest (91 : ℚ) := by
  have h := c9_string_total.2.2.2.2.1 ⟨91, .Lat⟩ rfl
    (by rw [show |(91 : ℚ)| = 91 from abs_of_pos (by norm_num)]; norm_num)
  exact h

/-! ### Character-class facts for digit characters -/

theorem digit_not_secsep (c : Char) (h : isDigitC c = true) : isSecSepChar c = false := by
  rw [isSecSepChar]
  simp only [decide_eq_false_iff_not]
  rintro (rfl | rfl) <;> exact absurd h (by decide)

theorem digit_not_loc (c : Char) (h : isDigitC c = true) : isLocChar c = false := by
  rw [isLocChar]
  simp only [decide_eq_false_iff_not]
  rintro (rfl | rfl | rfl | rfl) <;> exact absurd h (by decide)

/-- A number token of `coordRegExp`: digits, optionally followed by a decimal
mark and more digits. -/
inductive NumTok : List Char → Prop where
  | int (D : List Char) (hne : D ≠ []) (hD : D.all isDigitC = true) : NumTok D
  | dec (I : List Char) (m : Char) (F : List Char) (hIne : I ≠ [])
      (hI : I.all isDigitC = true) (hm : isMarkC m = true) (hFne : F ≠ [])
      (hF : F.all isDigitC = true) : NumTok (I ++ m :: F)

theorem NumTok_head (t : List Char) (h : NumTok t) :
    ∃ c r, t = c :: r ∧ isDigitC c = true := by
  rcases h with ⟨D, hne, hD⟩ | ⟨I, m, F, hIne, hI, hm, hFne, hF⟩
  · cases t with
    | nil => exact absurd rfl hne
    | cons c r =>
      simp only [List.all_cons, Bool.and_eq_true] at hD
      exact ⟨c, r, rfl, hD.1⟩
  · cases I with
    | nil => exact absurd rfl hIne
    | cons c r =>
      simp only [List.all_cons, Bool.and_eq_true] at hI
      refine ⟨c, r ++ m :: F, by simp, hI.1⟩

theorem NumTok_ne_nil (t : List Char) (h : NumTok t) : t ≠ [] := by
  obtain ⟨c, r, rfl, _⟩ := NumTok_head t h
  simp

theorem NumTok_headStops (q : Char → Bool) (t : List Char) (h : NumTok t)
    (hq : ∀ c, isDigitC c = true → q c = false) : headStops q t := by
  obtain ⟨c, r, rfl, hc⟩ := NumTok_head t h
  exact hq c hc

theorem locPart_stop (s : List Char) (h : headStops isLocChar s) : locPart s = ([], s) := by
  cases s with
  | nil => rfl
  | cons c t =>
    have hc : isLocChar c = false := h
    rw [locPart, if_neg (by simp [hc])]

/-- A fractional part of a canonical number literal: a decimal mark, `fz`
leading zeros and then the digits of `fv`. -/
structure Frac where
  mark : Char
  fz : ℕ
  fv : ℕ
deriving DecidableEq, Repr

/-- Number of digits after the decimal mark. -/
def fracLen (f : Frac) : ℕ := f.fz + (natChars f.fv).length

/-- Value contributed by the fractional part. -/
def fracVal (f : Frac) : ℚ := (f.fv : ℚ) / 10 ^ fracLen f

/-- Value of a canonical number literal. -/
def numLitVal (v : ℕ) (fr : Option Frac) : ℚ :=
  (v : ℚ) + (match fr with | none => 0 | some f => fracVal f)

theorem natChars_lt (n : ℕ) : n < 10 ^ (natChars n).length := by
  by_cases h : n = 0
  · subst h; decide
  · rw [natChars_eq_digits n h]
    simp only [List.length_reverse, List.length_map]
    rw [Nat.digits_len 10 n (by norm_num) h]
    exact Nat.lt_pow_succ_log_self (by norm_num) n

theorem fv_lt_pow (f : Frac) : f.fv < 10 ^ fracLen f := by
  calc f.fv < 10 ^ (natChars f.fv).length := natChars_lt f.fv
  _ ≤ 10 ^ fracLen f := Nat.pow_le_pow_right (by norm_num) (by rw [fracLen]; omega)

theorem fracVal_nonneg (f : Frac) : 0 ≤ fracVal f := by
  rw [fracVal]
  positivity

theorem fracVal_lt_one (f : Frac) : fracVal f < 1 := by
  rw [fracVal]
  rw [div_lt_one (by positivity)]
  have := fv_lt_pow f
  calc (f.fv : ℚ) < ((10 ^ fracLen f : ℕ) : ℚ) := by exact_mod_cast this
  _ = 10 ^ fracLen f := by push_cast; ring

theorem numLitVal_le (v : ℕ) (fr : Option Frac) : numLitVal v fr < v + 1 := by
  cases fr with
  | none => simp [numLitVal]
  | some f =>
    have := fracVal_lt_one f
    rw [numLitVal]
    linarith

theorem le_numLitVal (v : ℕ) (fr : Option Frac) : (v : ℚ) ≤ numLitVal v fr := by
  cases fr with
  | none => simp [numLitVal]
  | some f =>
    have := fracVal_nonneg f
    rw [numLitVal]
    linarith

/-! ### Reading canonical literals back -/

/-- Is the letter a negative-hemisphere letter? -/
def negLc (lo : Option Char) : Prop := lo = some 'S' ∨ lo = some 'W'

instance negLc.decidable (lo : Option Char) : Decidable (negLc lo) :=
  inferInstanceAs (Decidable (lo = some 'S' ∨ lo = some 'W'))

theorem fmtPrec_compact (cg : CoordGroups) (hcp : cg.compact = true) (hmn : cg.mn ≠ []) :
    fmtPrec cg = ('.', 0) := by
  rw [fmtPrec, if_neg (by rintro ⟨_, hc⟩; exact hc hcp),
    if_neg (by rintro ⟨_, hc⟩; exact hc hcp), if_neg (not_not_intro hmn)]

end Geoc
